import Mathlib

/-!
# FoundryStack financial-agent chain: shallow embedding

A shallow embedding of the chain orchestrator of
`backend/orchestrator/chain_manager.py` together with the pieces of the
repository the specification's testable properties refer to:

* input validation (`backend/utils/data_validation.py`, a pydantic model
  with `pre=True` coercion validators; pydantic's collect-all-field-errors
  behaviour is modelled),
* key derivation (`ChainManager._get_agent_key`),
* the sequential agent loop of `ChainManager.run` including its
  exception handling (the `agent_key` local variable of the Python loop
  is modelled explicitly, since it is only assigned after a successful
  `agent.run` and is read in the `except` branch),
* report assembly (`ChainManager._build_output`, `_generate_summary`),
* the fallback heuristics of `FundingStageAgent` and `RunwayAgent`
  (`_get_fallback_output`), whose Python arithmetic on possibly-`None`
  values is modelled by raising `Except` values exactly where Python
  raises `TypeError`.

Wall-clock data (the `execution_time_seconds` and `timestamp` fields) is
real time and is not modelled; no property below concerns it.
-/

set_option autoImplicit false

namespace FoundryStack

/-- Python values as they occur in this code base: `None`, numbers
(fractional parts never matter to any property checked here, so numbers
are integers; see `parseFloatChars`), strings, dicts and lists. -/
inductive PyVal where
  | none
  | int (n : Int)
  | str (s : String)
  | dict (d : List (String × PyVal))
  | list (xs : List PyVal)

/-- A Python dict with string keys, as an insertion-ordered association list. -/
abbrev PyDict := List (String × PyVal)

instance : Inhabited PyVal := ⟨PyVal.none⟩

/-- `d[k]` lookup returning `Option` (first binding wins; `dictSet`
keeps keys unique). -/
def dictGet (d : PyDict) (k : String) : Option PyVal :=
  match d with
  | [] => Option.none
  | (k1, v) :: rest => if k1 = k then some v else dictGet rest k

/-- `d.get(k, default)`. -/
def dictGetD (d : PyDict) (k : String) (default : PyVal) : PyVal :=
  (dictGet d k).getD default

/-- `d[k] = v` of a Python dict: replace in place when the key exists
(preserving insertion order), append otherwise. -/
def dictSet (d : PyDict) (k : String) (v : PyVal) : PyDict :=
  match d with
  | [] => [(k, v)]
  | (k1, v1) :: rest =>
      if k1 = k then (k1, v) :: rest else (k1, v1) :: dictSet rest k v

/-- `list(d.keys())`. -/
def dictKeys (d : PyDict) : List String := d.map Prod.fst

/-- `v.get(k, default)` where `v` is expected to be a dict; Python raises
`AttributeError` on non-dicts. -/
def pyGetD (v : PyVal) (k : String) (default : PyVal) : Except String PyVal :=
  match v with
  | .dict d => .ok (dictGetD d k default)
  | _ => .error "AttributeError: object has no attribute get"

/-- `v[k]` where `v` is expected to be a dict; raises `KeyError`/`TypeError`
like Python on a missing key or a non-dict. -/
def pyGetItem (v : PyVal) (k : String) : Except String PyVal :=
  match v with
  | .dict d =>
      match dictGet d k with
      | some w => .ok w
      | Option.none => .error ("KeyError: " ++ k)
  | _ => .error "TypeError: object is not subscriptable"

/-! ## Number parsing (`int(...)` / `float(...)` on the modelled values) -/

/-- Digits of a decimal literal. -/
def digitsVal : List Char → Option Nat
  | [] => Option.none
  | cs => cs.foldl (fun acc? c =>
      match acc? with
      | Option.none => Option.none
      | some acc => if c.isDigit then some (acc * 10 + (c.toNat - '0'.toNat)) else Option.none)
      (some 0)

/-- `int(s)` on a string: an optional sign followed by digits; anything
else (including a decimal point) raises `ValueError` in Python. -/
def parseIntChars : List Char → Option Int
  | '-' :: cs => (digitsVal cs).map (fun n => -(n : Int))
  | '+' :: cs => (digitsVal cs).map (fun n => (n : Int))
  | cs => (digitsVal cs).map (fun n => (n : Int))

/-- An unsigned decimal literal, optionally with a fractional part. The
fractional part's value is dropped: no checked property depends on
fractional values, only on parse success/failure and on the sign. -/
def parseUnsignedFloat (l : List Char) : Option Nat :=
  match l.splitOn '.' with
  | [w] => digitsVal w
  | [w, f] =>
      if (w.all Char.isDigit && f.all Char.isDigit) && !(w.isEmpty && f.isEmpty) then
        some ((digitsVal w).getD 0)
      else Option.none
  | _ => Option.none

/-- `float(s)` on a string. -/
def parseFloatChars : List Char → Option Int
  | '-' :: cs => (parseUnsignedFloat cs).map (fun n => -(n : Int))
  | '+' :: cs => (parseUnsignedFloat cs).map (fun n => (n : Int))
  | cs => (parseUnsignedFloat cs).map (fun n => (n : Int))

/-- Python `int(v)`. -/
def pyInt : PyVal → Except String Int
  | .int n => .ok n
  | .str s =>
      match parseIntChars s.toList with
      | some n => .ok n
      | Option.none => .error ("ValueError: invalid literal for int: " ++ s)
  | .none => .error "TypeError: int argument must be a string or a number, not NoneType"
  | _ => .error "TypeError: int argument must be a string or a number"

/-- Python `float(v)`. -/
def pyFloat : PyVal → Except String Int
  | .int n => .ok n
  | .str s =>
      match parseFloatChars s.toList with
      | some n => .ok n
      | Option.none => .error ("ValueError: could not convert string to float: " ++ s)
  | .none => .error "TypeError: float argument must be a string or a number, not NoneType"
  | _ => .error "TypeError: float argument must be a string or a number"

/-! ## Python arithmetic and comparisons on modelled values

Numeric operators work on numbers and raise `TypeError` otherwise —
in particular on `None`, which is how the fallback heuristics can fail. -/

def pyLt (a b : PyVal) : Except String Bool :=
  match a, b with
  | .int m, .int n => .ok (decide (m < n))
  | _, _ => .error "TypeError: '<' not supported between instances of 'NoneType' and 'int'"

def pyGt (a b : PyVal) : Except String Bool :=
  match a, b with
  | .int m, .int n => .ok (decide (m > n))
  | _, _ => .error "TypeError: '>' not supported between instances of 'NoneType' and 'int'"

def pySub (a b : PyVal) : Except String Int :=
  match a, b with
  | .int m, .int n => .ok (m - n)
  | _, _ => .error "TypeError: unsupported operand type(s) for -: 'int' and 'NoneType'"

def pyMul (a b : PyVal) : Except String Int :=
  match a, b with
  | .int m, .int n => .ok (m * n)
  | _, _ => .error "TypeError: unsupported operand type(s) for *: 'NoneType' and 'int'"

/-- Python `==` between a value and a string literal: `False` when the
value is not a string (never raises). -/
def pyEqStr (v : PyVal) (s : String) : Bool :=
  match v with
  | .str t => t = s
  | _ => false

/-- `str(v)` as used by f-string interpolation. Dict/list values are
abbreviated: no checked property inspects the summary text of a report
beyond its presence. -/
def pyStrOf : PyVal → String
  | .none => "None"
  | .int n => toString n
  | .str s => s
  | .dict _ => "\x7b...\x7d"
  | .list _ => "[...]"

/-! ## Input validation (`backend/utils/data_validation.py`)

`StartupInput` is a pydantic model. Pydantic validates every field and
collects the errors of *all* failing fields into one `ValidationError`
(modelled by `startupInputErrors`); `validate_startup_input` wraps the
collected errors into a `ValueError("Invalid startup input: ...")`. -/

/-- The Python expression `cls.__fields__['fundingGoal']` used in
`convert_to_float` denotes a pydantic field object, which is always
truthy — so the `else 0` branch of
`return None if cls.__fields__['fundingGoal'] else 0` is dead code and
both `monthlyRevenue` and `fundingGoal` degrade to `None`. -/
def fundingGoalFieldTruthy : Bool := true

/-- `StartupInput.convert_to_float` (`pre=True` validator for
`monthlyRevenue` and `fundingGoal`). -/
def convert_to_float (v : PyVal) : PyVal :=
  let degraded : PyVal := if fundingGoalFieldTruthy then PyVal.none else PyVal.int 0
  match v with
  | .none => degraded
  | _ =>
      if pyEqStr v "" then degraded
      else
        match pyFloat v with
        | .ok n => .int n
        | .error _ => degraded

/-- `StartupInput.convert_to_int` (`pre=True` validator for `teamSize`). -/
def convert_to_int (v : PyVal) : PyVal :=
  match v with
  | .none => .int 0
  | _ =>
      if pyEqStr v "" then .int 0
      else
        match pyInt v with
        | .ok n => .int n
        | .error _ => .int 0

/-- A required `str` field with `min_length` (and optionally `max_length`). -/
def fieldStr (minLen : Nat) (maxLen : Option Nat) (v? : Option PyVal) :
    Except String String :=
  match v? with
  | Option.none => .error "Field required"
  | some (.str s) =>
      if s.length < minLen then .error "String should have at least 1 character"
      else
        match maxLen with
        | some m =>
            if s.length > m then .error "String should have at most 200 characters"
            else .ok s
        | Option.none => .ok s
  | some _ => .error "Input should be a valid string"

/-- A required `str` field constrained by an anchored alternation pattern
(equivalently: membership in the listed alternatives). -/
def fieldPattern (allowed : List String) (patStr : String) (v? : Option PyVal) :
    Except String String :=
  match v? with
  | Option.none => .error "Field required"
  | some (.str s) =>
      if s ∈ allowed then .ok s
      else .error ("String should match pattern " ++ patStr)
  | some _ => .error "Input should be a valid string"

/-- `teamSize: int = Field(..., ge=0, le=10000)` after `convert_to_int`. -/
def fieldTeamSize (v? : Option PyVal) : Except String Int :=
  match v? with
  | Option.none => .error "Field required"
  | some v =>
      match convert_to_int v with
      | .int n =>
          if n < 0 then .error "Input should be greater than or equal to 0"
          else if n > 10000 then .error "Input should be less than or equal to 10000"
          else .ok n
      | _ => .error "Input should be a valid integer"

/-- `monthlyRevenue: Optional[float] = Field(0, ge=0)` after
`convert_to_float` (the validator does not run on the default). -/
def fieldMonthlyRevenue (v? : Option PyVal) : Except String (Option Int) :=
  match v? with
  | Option.none => .ok (some 0)
  | some v =>
      match convert_to_float v with
      | .none => .ok Option.none
      | .int n =>
          if n < 0 then .error "Input should be greater than or equal to 0"
          else .ok (some n)
      | _ => .error "Input should be a valid number"

/-- `fundingGoal: Optional[float] = Field(None, ge=0)` after `convert_to_float`. -/
def fieldFundingGoal (v? : Option PyVal) : Except String (Option Int) :=
  match v? with
  | Option.none => .ok Option.none
  | some v =>
      match convert_to_float v with
      | .none => .ok Option.none
      | .int n =>
          if n < 0 then .error "Input should be greater than or equal to 0"
          else .ok (some n)
      | _ => .error "Input should be a valid number"

/-- `Optional[str] = ""` fields (`growthRate`, `tractionSummary`). -/
def fieldOptStr (v? : Option PyVal) : Except String (Option String) :=
  match v? with
  | Option.none => .ok (some "")
  | some (.str s) => .ok (some s)
  | some .none => .ok Option.none
  | some _ => .error "Input should be a valid string"

/-- The validated `StartupInput` model. Numeric fields are modelled as
integers (see `parseFloatChars`). -/
structure StartupInput where
  startupName : String
  industry : String
  targetMarket : String
  geography : String
  teamSize : Int
  productStage : String
  monthlyRevenue : Option Int
  growthRate : Option String
  tractionSummary : Option String
  businessModel : String
  fundingGoal : Option Int
  mainFinancialConcern : String

def errsOf {α : Type} (fieldName : String) : Except String α → List (String × String)
  | .ok _ => []
  | .error m => [(fieldName, m)]

def targetMarketAllowed : List String := ["B2B", "B2C", "B2B2C"]

def productStageAllowed : List String := ["Idea", "MVP", "Beta", "Revenue", "Scaling"]

/-- All field errors of a raw input, in field-declaration order: pydantic
validates every field and reports every failing one. -/
def startupInputErrors (d : PyDict) : List (String × String) :=
  errsOf "startupName" (fieldStr 1 (some 200) (dictGet d "startupName")) ++
  errsOf "industry" (fieldStr 1 Option.none (dictGet d "industry")) ++
  errsOf "targetMarket"
    (fieldPattern targetMarketAllowed "^(B2B|B2C|B2B2C)$" (dictGet d "targetMarket")) ++
  errsOf "geography" (fieldStr 1 Option.none (dictGet d "geography")) ++
  errsOf "teamSize" (fieldTeamSize (dictGet d "teamSize")) ++
  errsOf "productStage"
    (fieldPattern productStageAllowed "^(Idea|MVP|Beta|Revenue|Scaling)$"
      (dictGet d "productStage")) ++
  errsOf "monthlyRevenue" (fieldMonthlyRevenue (dictGet d "monthlyRevenue")) ++
  errsOf "growthRate" (fieldOptStr (dictGet d "growthRate")) ++
  errsOf "tractionSummary" (fieldOptStr (dictGet d "tractionSummary")) ++
  errsOf "businessModel" (fieldStr 1 Option.none (dictGet d "businessModel")) ++
  errsOf "fundingGoal" (fieldFundingGoal (dictGet d "fundingGoal")) ++
  errsOf "mainFinancialConcern" (fieldStr 1 Option.none (dictGet d "mainFinancialConcern"))

/-- The model instance, when every field validates. -/
def buildStartupInput (d : PyDict) : Option StartupInput := do
  let startupName ← (fieldStr 1 (some 200) (dictGet d "startupName")).toOption
  let industry ← (fieldStr 1 Option.none (dictGet d "industry")).toOption
  let targetMarket ←
    (fieldPattern targetMarketAllowed "^(B2B|B2C|B2B2C)$" (dictGet d "targetMarket")).toOption
  let geography ← (fieldStr 1 Option.none (dictGet d "geography")).toOption
  let teamSize ← (fieldTeamSize (dictGet d "teamSize")).toOption
  let productStage ←
    (fieldPattern productStageAllowed "^(Idea|MVP|Beta|Revenue|Scaling)$"
      (dictGet d "productStage")).toOption
  let monthlyRevenue ← (fieldMonthlyRevenue (dictGet d "monthlyRevenue")).toOption
  let growthRate ← (fieldOptStr (dictGet d "growthRate")).toOption
  let tractionSummary ← (fieldOptStr (dictGet d "tractionSummary")).toOption
  let businessModel ← (fieldStr 1 Option.none (dictGet d "businessModel")).toOption
  let fundingGoal ← (fieldFundingGoal (dictGet d "fundingGoal")).toOption
  let mainFinancialConcern ←
    (fieldStr 1 Option.none (dictGet d "mainFinancialConcern")).toOption
  pure { startupName, industry, targetMarket, geography, teamSize, productStage,
         monthlyRevenue, growthRate, tractionSummary, businessModel, fundingGoal,
         mainFinancialConcern }

/-- `StartupInput(**data)`: the validated model, or the collected errors
of every failing field. -/
def validateStartupInput (d : PyDict) : Except (List (String × String)) StartupInput :=
  match buildStartupInput d with
  | some r => .ok r
  | Option.none => .error (startupInputErrors d)

def renderErrors (errs : List (String × String)) : String :=
  String.intercalate "; " (errs.map (fun e => e.1 ++ ": " ++ e.2))

/-- `validate_startup_input`: re-raises any validation failure as
`ValueError(f"Invalid startup input: {str(e)}")`. -/
def validate_startup_input (d : PyDict) : Except String StartupInput :=
  match validateStartupInput d with
  | .ok r => .ok r
  | .error es => .error ("Invalid startup input: " ++ renderErrors es)

def optValInt : Option Int → PyVal
  | some n => .int n
  | Option.none => .none

def optValStr : Option String → PyVal
  | some s => .str s
  | Option.none => .none

/-- `input_to_dict(validated).` = `validated.dict()`. -/
def input_to_dict (s : StartupInput) : PyDict :=
  [("startupName", .str s.startupName),
   ("industry", .str s.industry),
   ("targetMarket", .str s.targetMarket),
   ("geography", .str s.geography),
   ("teamSize", .int s.teamSize),
   ("productStage", .str s.productStage),
   ("monthlyRevenue", optValInt s.monthlyRevenue),
   ("growthRate", optValStr s.growthRate),
   ("tractionSummary", optValStr s.tractionSummary),
   ("businessModel", .str s.businessModel),
   ("fundingGoal", optValInt s.fundingGoal),
   ("mainFinancialConcern", .str s.mainFinancialConcern)]

/-! ## Key derivation (`ChainManager._get_agent_key`) -/

/-- The characters of the word `"Agent"`. -/
def agentChars : List Char := ['A', 'g', 'e', 'n', 't']

/-- Python `name.replace("Agent", "")`: removes every leftmost,
non-overlapping occurrence of `"Agent"`, not only a trailing suffix. -/
def removeAgent : List Char → List Char
  | 'A' :: 'g' :: 'e' :: 'n' :: 't' :: rest => removeAgent rest
  | c :: rest => c :: removeAgent rest
  | [] => []

/-- `re.sub('([a-z0-9])([A-Z])', r'\1_\2', key)`: insert `_` between a
lowercase letter or digit and a following uppercase letter. -/
def snakeSub : List Char → List Char
  | c1 :: c2 :: rest =>
      if (c1.isLower || c1.isDigit) && c2.isUpper then
        c1 :: '_' :: snakeSub (c2 :: rest)
      else
        c1 :: snakeSub (c2 :: rest)
  | l => l

/-- `ChainManager._get_agent_key`. -/
def getAgentKey (name : String) : String :=
  String.mk ((snakeSub (removeAgent name.toList)).map Char.toLower)

/-- Modelled from the spec (for comparison with `getAgentKey`): "remove a
conventional identity suffix (e.g., the word Agent) from the name" —
strip one trailing `"Agent"`. -/
def stripSuffixAgent : List Char → List Char
  | [] => []
  | c :: t => if c :: t = agentChars then [] else c :: stripSuffixAgent t

/-- Modelled from the spec (for comparison with `getAgentKey`): "insert a
separator at each lowercase-to-uppercase transition". -/
def snakeSpec : List Char → List Char
  | c1 :: c2 :: rest =>
      if c1.isLower && c2.isUpper then
        c1 :: '_' :: snakeSpec (c2 :: rest)
      else
        c1 :: snakeSpec (c2 :: rest)
  | l => l

/-- Modelled from the spec (for comparison with `getAgentKey`): the
spec's key-derivation algorithm of §4.2, word for word: strip the
`"Agent"` suffix, separate at lowercase-to-uppercase transitions,
lowercase. -/
def specDeriveKey (name : String) : String :=
  String.mk ((snakeSpec (stripSuffixAgent name.toList)).map Char.toLower)

/-- Does the list begin with `"Agent"`? -/
def startsWithAgent : List Char → Bool
  | 'A' :: 'g' :: 'e' :: 'n' :: 't' :: _ => true
  | _ => false

/-- `"Agent"` occurs at most once, and only as the final suffix. -/
def agentOnlyAtEnd : List Char → Bool
  | 'A' :: 'g' :: 'e' :: 'n' :: 't' :: rest => rest.isEmpty
  | _ :: t => agentOnlyAtEnd t
  | [] => true

/-- No digit is immediately followed by an uppercase letter. -/
def noDigitUpper : List Char → Bool
  | c1 :: c2 :: rest => !(c1.isDigit && c2.isUpper) && noDigitUpper (c2 :: rest)
  | _ => true

/-! ## The orchestrator (`ChainManager`) -/

/-- One pipeline stage as the orchestrator sees it: the class name (set
by `BaseAgent.__init__`), the `run` method — whose embedded LLM call is
opaque, so `run` is the stage's behaviour on `(input, context)`, raising
by returning `.error` — and its `_get_fallback_output` method. The
orchestrator itself never calls `fallback`. -/
structure Agent where
  name : String
  run : PyDict → PyDict → Except String PyDict
  fallback : PyDict → PyDict → Except String PyDict

/-- One `self.execution_log` record. The wall-clock `timestamp` field is
not modelled. -/
structure LogEntry where
  agent : String
  status : String
  outputKeys : Option (List String)
  errorMsg : Option String

def successEntry (a : Agent) (out : PyDict) : LogEntry :=
  { agent := a.name, status := "success", outputKeys := some (dictKeys out),
    errorMsg := Option.none }

def failedEntry (a : Agent) (e : String) : LogEntry :=
  { agent := a.name, status := "failed", outputKeys := Option.none,
    errorMsg := some e }

/-- The error Python raises when the `except` branch of the agent loop
reads the loop-local `agent_key` before any agent has succeeded:
`agent_key` is only assigned *after* a successful `agent.run`. -/
def agentKeyUnboundMsg : String :=
  "UnboundLocalError: local variable agent_key referenced before assignment"

/-- The mutable state of `ChainManager.run`'s agent loop: the `agent_key`
local variable (assigned only after a successful `agent.run`),
`self.context`, and `self.execution_log`. -/
structure RunState where
  agentKeyVar : Option String
  ctx : PyDict
  log : List LogEntry

/-- The `for agent in self.agents` loop of `ChainManager.run`. On
success, the output is stored under the freshly derived key and a
success entry is appended. On an exception, a failed entry is appended
and then `{"error": str(e)}` is written under the *current value of the
`agent_key` local* — i.e. the key of the most recent successful stage;
if no stage has succeeded yet, that read raises `UnboundLocalError`,
which propagates and aborts the loop (second component `some msg`; the
already-appended log entries survive on the instance). -/
def runAgents (input : PyDict) : List Agent → RunState → RunState × Option String
  | [], st => (st, Option.none)
  | a :: rest, st =>
      match a.run input st.ctx with
      | .ok out =>
          let key := getAgentKey a.name
          runAgents input rest
            { agentKeyVar := some key,
              ctx := dictSet st.ctx key (.dict out),
              log := st.log ++ [successEntry a out] }
      | .error e =>
          match st.agentKeyVar with
          | some key =>
              runAgents input rest
                { agentKeyVar := some key,
                  ctx := dictSet st.ctx key (.dict [("error", .str e)]),
                  log := st.log ++ [failedEntry a e] }
          | Option.none =>
              ({ st with log := st.log ++ [failedEntry a e] }, some agentKeyUnboundMsg)

/-- `ChainManager._generate_summary`. -/
def generateSummary (ctx : PyDict) : Except String String := do
  let stage ← pyGetD (dictGetD ctx "funding_stage" (.dict [])) "funding_stage" (.str "N/A")
  let amount ← pyGetD (dictGetD ctx "raise_amount" (.dict [])) "recommended_amount" (.str "N/A")
  let investor ←
    pyGetD (dictGetD ctx "investor_type" (.dict [])) "primary_investor_type" (.str "N/A")
  let runway ←
    pyGetD (dictGetD ctx "runway" (.dict [])) "estimated_runway_months" (.str "N/A")
  let inputVal ←
    (match dictGet ctx "input" with
     | some v => Except.ok v
     | Option.none => Except.error "KeyError: input")
  let nameVal ← pyGetItem inputVal "startupName"
  .ok ("Based on the analysis, " ++ pyStrOf nameVal ++ " should target " ++
       pyStrOf stage ++ " stage funding of " ++ pyStrOf amount ++ " from " ++
       pyStrOf investor ++ ". This will provide approximately " ++ pyStrOf runway ++
       " months of runway to achieve key milestones.")

/-- `ChainManager._build_output`: projects the five stage keys out of the
context with `{}` defaults, plus the seed input's name and the summary. -/
def buildOutput (ctx : PyDict) : Except String PyDict :=
  match dictGet ctx "input" with
  | Option.none => .error "KeyError: input"
  | some inputVal =>
      match pyGetItem inputVal "startupName" with
      | .error e => .error e
      | .ok nameVal =>
          match generateSummary ctx with
          | .error e => .error e
          | .ok summary =>
              .ok [("startup_name", nameVal),
                   ("funding_stage", dictGetD ctx "funding_stage" (.dict [])),
                   ("raise_amount", dictGetD ctx "raise_amount" (.dict [])),
                   ("investor_type", dictGetD ctx "investor_type" (.dict [])),
                   ("runway", dictGetD ctx "runway" (.dict [])),
                   ("financial_priority", dictGetD ctx "financial_priority" (.dict [])),
                   ("summary", .str summary)]

/-- A log entry as it appears (verbatim) inside `metadata.execution_log`. -/
def logEntryToPy (e : LogEntry) : PyVal :=
  .dict ([("agent", .str e.agent), ("status", .str e.status)] ++
    (match e.outputKeys with
     | some ks => [("output_keys", .list (ks.map PyVal.str))]
     | Option.none => []) ++
    (match e.errorMsg with
     | some m => [("error", .str m)]
     | Option.none => []))

/-- The orchestrator instance: the configured agent list plus the two
instance attributes `self.context` and `self.execution_log`. -/
structure ChainManager where
  agents : List Agent
  context : PyDict
  executionLog : List LogEntry

/-- `ChainManager.__init__`: stores an empty context and execution log
and builds the agent list (generalised here over the configured list;
the source hardcodes its five finance agents). Each agent constructor
raises `ValueError` when no API key is available — the environment is
modelled as providing none — and `__init__` re-raises that. No
key-collision or any other validation of the agent list is performed. -/
def ChainManager.init (apiKey : Option String) (agents : List Agent) :
    Except String ChainManager :=
  match apiKey with
  | Option.none =>
      .error "GEMINI_API_KEY or GOOGLE_API_KEY not found in environment"
  | some _ => .ok { agents := agents, context := [], executionLog := [] }

/-- `ChainManager.run`. Returns the consolidated report (or the raised
error) together with the post-call instance: `self.context` and
`self.execution_log` are instance attributes, so their mutations survive
even when `run` raises, and the execution log is never cleared between
runs. The wall-clock metadata fields are not modelled. -/
def ChainManager.run (cm : ChainManager) (rawInput : PyDict) :
    Except String PyDict × ChainManager :=
  match validate_startup_input rawInput with
  | .error e => (.error e, cm)
  | .ok validated =>
      let inputDict := input_to_dict validated
      let st0 : RunState :=
        { agentKeyVar := Option.none,
          ctx := [("input", .dict inputDict)],
          log := cm.executionLog }
      let res := runAgents inputDict cm.agents st0
      let cm2 : ChainManager :=
        { cm with context := res.1.ctx, executionLog := res.1.log }
      match res.2 with
      | some e => (.error e, cm2)
      | Option.none =>
          match buildOutput res.1.ctx with
          | .error e => (.error e, cm2)
          | .ok output =>
              let meta : PyVal := .dict
                [("agents_executed", .int (cm.agents.length : Int)),
                 ("execution_log", .list (res.1.log.map logEntryToPy))]
              (.ok (dictSet output "metadata" meta), cm2)

/-! ## Concrete agents (`agents/funding_stage_agent.py`, `agents/runway_agent.py`) -/

/-- `FundingStageAgent._get_fallback_output`. The Python comparisons of
`monthly_revenue` against integer literals raise `TypeError` when
validation produced `monthlyRevenue = None`; short-circuit evaluation of
`and`/`or` is preserved. -/
def fundingStageFallback (inputData : PyDict) : Except String PyDict := do
  let productStage := dictGetD inputData "productStage" (.str "Idea")
  let monthlyRevenue := dictGetD inputData "monthlyRevenue" (.int 0)
  let stage ←
    if pyEqStr productStage "Idea" then pure "Pre-Seed"
    else do
      let c1 ←
        (if pyEqStr productStage "MVP" then pyLt monthlyRevenue (.int 1000)
         else pure false)
      if c1 then pure "Pre-Seed"
      else do
        let c2 ←
          (if pyEqStr productStage "Beta" then pure true
           else if pyEqStr productStage "Revenue" then pyLt monthlyRevenue (.int 10000)
           else pure false)
        if c2 then pure "Seed"
        else do
          let c3 ← pyGt monthlyRevenue (.int 50000)
          if c3 then pure "Series A" else pure "Seed"
  .ok [("funding_stage", .str stage),
       ("confidence", .str "low"),
       ("rationale", .str "Fallback recommendation based on product stage and revenue (AI analysis unavailable)"),
       ("stage_characteristics", .str "Basic heuristic applied")]

/-- `FundingStageAgent._parse_response`, with `json.loads` opaque (the
`jsonLoads` parameter): strip markdown fences, parse, then require the
listed fields, raising `ValueError` at the first missing one. A JSON
decode error is wrapped as `Failed to parse AI response`. -/
def parseResponseWith (jsonLoads : String → Except String PyDict)
    (requiredFields : List String) (responseText : String) : Except String PyDict :=
  let ct := responseText.trim
  let ct :=
    if ct.startsWith "```json" then ((ct.replace "```json" "").replace "```" "").trim
    else if ct.startsWith "```" then (ct.replace "```" "").trim
    else ct
  match jsonLoads ct with
  | .error e => .error ("Failed to parse AI response: " ++ e)
  | .ok parsed =>
      match requiredFields.find? (fun f => (dictGet parsed f).isNone) with
      | some f => .error ("Missing required field: " ++ f)
      | Option.none => .ok parsed

/-- `FundingStageAgent.run`: build the prompt (pure), call Gemini (the
opaque `generate`), parse and validate the response; on *any* exception
return `_get_fallback_output(input_data)` — whose own exceptions
propagate out of `run`. -/
def fundingStageRun (generate : Except String String)
    (jsonLoads : String → Except String PyDict)
    (inputData : PyDict) (_context : PyDict) : Except String PyDict :=
  match (do
      let text ← generate
      parseResponseWith jsonLoads ["funding_stage", "confidence", "rationale"] text :
      Except String PyDict) with
  | .ok result => .ok result
  | .error _ => fundingStageFallback inputData

def isAmtChar (c : Char) : Bool := c.isDigit || c == ','

/-- `re.findall(r'\$?([\d,]+)K', s)`: the capture groups — maximal runs
of digits/commas that are immediately followed by `K`. -/
def findAmountsKAux : List Char → List Char → List (List Char)
  | _, [] => []
  | acc, c :: rest =>
      if isAmtChar c then findAmountsKAux (c :: acc) rest
      else if c == 'K' && !acc.isEmpty then acc.reverse :: findAmountsKAux [] rest
      else findAmountsKAux [] rest

def findAmountsK (cs : List Char) : List (List Char) := findAmountsKAux [] cs

/-- `RunwayAgent._get_fallback_output`. The burn-rate arithmetic raises
`TypeError` when `monthlyRevenue` is `None`. `int(a / b)` truncates
toward zero (`Int.tdiv`). -/
def runwayFallback (inputData context : PyDict) : Except String PyDict := do
  let teamSize := dictGetD inputData "teamSize" (.int 3)
  let monthlyRevenue := dictGetD inputData "monthlyRevenue" (.int 0)
  let teamCost ← pyMul teamSize (.int 10000)
  let diff ← pySub (.int (teamCost + 20000)) monthlyRevenue
  let netBurn : Int := max diff 5000
  let raiseStrV ←
    pyGetD (dictGetD context "raise_amount" (.dict [])) "optimal_amount" (.str "$500K")
  let raiseStr ←
    (match raiseStrV with
     | .str s => Except.ok s
     | _ => Except.error "TypeError: expected string or bytes-like object")
  let raiseK ←
    (match findAmountsK raiseStr.toList with
     | [] => pure (500 : Int)
     | first :: _ =>
         let cleaned := first.filter (fun c => c ≠ ',')
         match parseFloatChars cleaned with
         | some n => pure n
         | Option.none =>
             Except.error ("ValueError: could not convert string to float: " ++
               String.mk cleaned))
  let runwayMonths : Int := Int.tdiv (raiseK * 1000) netBurn
  let teamTimes10 ← pyMul teamSize (.int 10)
  let mrInt ← pyInt monthlyRevenue
  .ok [("estimated_runway_months",
          .str (toString runwayMonths ++ "-" ++ toString (runwayMonths + 3))),
       ("monthly_burn_rate", .str ("$" ++ toString (Int.tdiv netBurn 1000) ++ "K")),
       ("assumptions", .dict
          [("team_costs", .str ("$" ++ toString teamTimes10 ++ "K")),
           ("operational_expenses", .str "$20K"),
           ("growth_investments", .str "Variable")]),
       ("revenue_impact", .str ("$" ++ toString mrInt ++ " MRR offsets burn")),
       ("key_milestones", .list
          [.str "Achieve product-market fit", .str "Reach next funding stage"]),
       ("burn_rate_guidance", .str "Monitor closely, optimize hiring pace")]

/-! ## Concrete fixtures for witnesses and counterexamples -/

/-- A raw frontend payload that passes validation. -/
def rawGood : PyDict :=
  [("startupName", .str "Acme"), ("industry", .str "Fintech"),
   ("targetMarket", .str "B2B"), ("geography", .str "US"),
   ("teamSize", .int 5), ("productStage", .str "MVP"),
   ("monthlyRevenue", .int 2000), ("businessModel", .str "SaaS"),
   ("mainFinancialConcern", .str "Runway")]

/-- A raw payload violating two constraints at once: negative team size
and an out-of-enumeration target market. -/
def rawTwoBad : PyDict :=
  [("startupName", .str "Acme"), ("industry", .str "Fintech"),
   ("targetMarket", .str "B2X"), ("geography", .str "US"),
   ("teamSize", .int (-1)), ("productStage", .str "MVP"),
   ("monthlyRevenue", .int 2000), ("businessModel", .str "SaaS"),
   ("mainFinancialConcern", .str "Runway")]

/-- A raw payload whose `monthlyRevenue` is the empty string: validation
accepts it, coercing the field to `None`. -/
def rawMVPEmptyRevenue : PyDict :=
  [("startupName", .str "Acme"), ("industry", .str "Fintech"),
   ("targetMarket", .str "B2B"), ("geography", .str "US"),
   ("teamSize", .int 5), ("productStage", .str "MVP"),
   ("monthlyRevenue", .str ""), ("businessModel", .str "SaaS"),
   ("mainFinancialConcern", .str "Runway")]

def fsOut : PyDict :=
  [("funding_stage", .str "Seed"), ("confidence", .str "high"), ("rationale", .str "ok")]

def raOut : PyDict :=
  [("recommended_amount", .str "$1M"), ("optimal_amount", .str "$1M"),
   ("rationale", .str "ok")]

def itOut : PyDict := [("primary_investor_type", .str "Angel")]

def rwOut : PyDict :=
  [("estimated_runway_months", .str "12-15"), ("monthly_burn_rate", .str "$70K")]

def fpOut : PyDict := [("priorities", .list [.str "runway"])]

/-- A stage whose (LLM-backed) `run` returns `out`. -/
def okAgent (name : String) (out : PyDict) : Agent :=
  { name := name, run := fun _ _ => .ok out, fallback := fun _ _ => .ok out }

/-- A stage whose `run` raises `msg`; its declared fallback returns `fb`. -/
def failAgent (name : String) (msg : String) (fb : PyDict) : Agent :=
  { name := name, run := fun _ _ => .error msg, fallback := fun _ _ => .ok fb }

def agentsAllOk : List Agent :=
  [okAgent "FundingStageAgent" fsOut, okAgent "RaiseAmountAgent" raOut,
   okAgent "InvestorTypeAgent" itOut, okAgent "RunwayAgent" rwOut,
   okAgent "FinancialPriorityAgent" fpOut]

def cmAllOk : ChainManager :=
  { agents := agentsAllOk, context := [], executionLog := [] }

def fsFallbackOut : PyDict :=
  [("funding_stage", .str "Pre-Seed"), ("confidence", .str "low"),
   ("rationale", .str "heuristic"), ("stage_characteristics", .str "basic")]

/-- Stage 1 raises (e.g. its own fallback failed too). -/
def agentsFirstFails : List Agent :=
  [failAgent "FundingStageAgent" "boom" fsFallbackOut,
   okAgent "RaiseAmountAgent" raOut, okAgent "InvestorTypeAgent" itOut,
   okAgent "RunwayAgent" rwOut, okAgent "FinancialPriorityAgent" fpOut]

def cmFirstFails : ChainManager :=
  { agents := agentsFirstFails, context := [], executionLog := [] }

def raFallbackOut : PyDict :=
  [("recommended_amount", .str "$500K-$2M"), ("optimal_amount", .str "$500K-$2M"),
   ("rationale", .str "Typical range for Seed stage (fallback)")]

/-- Stage 2 raises; every other stage succeeds. -/
def agentsSecondFails : List Agent :=
  [okAgent "FundingStageAgent" fsOut,
   failAgent "RaiseAmountAgent" "timeout" raFallbackOut,
   okAgent "InvestorTypeAgent" itOut, okAgent "RunwayAgent" rwOut,
   okAgent "FinancialPriorityAgent" fpOut]

def cmSecondFails : ChainManager :=
  { agents := agentsSecondFails, context := [], executionLog := [] }

/-- The Gemini call fails (quota exhausted). -/
def geminiDown : Except String String := .error "429 Resource has been exhausted"

def jsonLoadsUnused : String → Except String PyDict := fun _ => .error "Expecting value"

/-- The real `FundingStageAgent` embedding with its LLM call failing: its
`run` absorbs the failure and returns `_get_fallback_output`. -/
def fundingStageAgentDown : Agent :=
  { name := "FundingStageAgent",
    run := fundingStageRun geminiDown jsonLoadsUnused,
    fallback := fun i _ => fundingStageFallback i }

def agentsInternalFallback : List Agent :=
  [fundingStageAgentDown, okAgent "RaiseAmountAgent" raOut,
   okAgent "InvestorTypeAgent" itOut, okAgent "RunwayAgent" rwOut,
   okAgent "FinancialPriorityAgent" fpOut]

def cmInternalFallback : ChainManager :=
  { agents := agentsInternalFallback, context := [], executionLog := [] }

/-- Two distinct agent names that both derive to the key `"raise"`. -/
def raiseAgentA : Agent := okAgent "RaiseAgent" [("k", .str "first")]

def raiseAgentB : Agent := okAgent "RaiseAgentAgent" [("k", .str "second")]

/-- `input_to_dict` of the validated form of `rawGood`. -/
def inputGoodDict : PyDict :=
  [("startupName", .str "Acme"), ("industry", .str "Fintech"),
   ("targetMarket", .str "B2B"), ("geography", .str "US"),
   ("teamSize", .int 5), ("productStage", .str "MVP"),
   ("monthlyRevenue", .int 2000), ("growthRate", .str ""),
   ("tractionSummary", .str ""), ("businessModel", .str "SaaS"),
   ("fundingGoal", PyVal.none), ("mainFinancialConcern", .str "Runway")]

/-- The loop state at the start of a run seeded with `inputGoodDict`. -/
def st0Good : RunState :=
  { agentKeyVar := Option.none, ctx := [("input", .dict inputGoodDict)], log := [] }

instance : Inhabited Agent :=
  ⟨{ name := "", run := fun _ _ => .ok [], fallback := fun _ _ => .ok [] }⟩

instance : Inhabited LogEntry :=
  ⟨{ agent := "", status := "", outputKeys := Option.none, errorMsg := Option.none }⟩

/-- The log status the orchestrator records for a stage whose `run`
returned resp. raised. -/
def statusOf {α : Type} : Except String α → String
  | .ok _ => "success"
  | .error _ => "failed"

/-- The context passed to stage `i` of a run: the state after the first
`i` stages, starting from seed context `c`. -/
def stageCtx (input : PyDict) (as : List Agent) (k : Option String) (c : PyDict)
    (i : Nat) : PyDict :=
  (runAgents input (as.take i) ⟨k, c, []⟩).1.ctx

/-- The log entries contributed by one run over seed context `c`. -/
def freshLog (input : PyDict) (as : List Agent) (c : PyDict) : List LogEntry :=
  (runAgents input as ⟨Option.none, c, []⟩).1.log

/-- The length of `metadata.execution_log` of a report. -/
def metadataLogLength (r : PyDict) : Option Nat :=
  match dictGet r "metadata" with
  | some (.dict m) =>
      (match dictGet m "execution_log" with
       | some (.list l) => some l.length
       | _ => Option.none)
  | _ => Option.none

/-- `teamSize` raw values the claim calls malformed: `None`, the empty
string, or a non-numeric string. -/
def badIntVal (v : PyVal) : Prop :=
  v = PyVal.none ∨ v = .str "" ∨ ∃ s, v = .str s ∧ parseIntChars s.toList = Option.none

/-- `monthlyRevenue`/`fundingGoal` raw values the claim calls malformed:
the empty string or a non-numeric string. -/
def badFloatVal (v : PyVal) : Prop :=
  v = .str "" ∨ ∃ s, v = .str s ∧ parseFloatChars s.toList = Option.none

/-- The five stage context keys of the finance chain. -/
def stageKeys : List String :=
  ["funding_stage", "raise_amount", "investor_type", "runway", "financial_priority"]

/-- A raw payload with malformed numeric fields: non-numeric `teamSize`,
empty `monthlyRevenue`, non-numeric `fundingGoal`. -/
def rawCoerce : PyDict :=
  [("startupName", .str "Acme"), ("industry", .str "Fintech"),
   ("targetMarket", .str "B2C"), ("geography", .str "US"),
   ("teamSize", .str "abc"), ("productStage", .str "Idea"),
   ("monthlyRevenue", .str ""), ("businessModel", .str "SaaS"),
   ("fundingGoal", .str "goal"), ("mainFinancialConcern", .str "Runway")]

/-- The model `rawCoerce` validates to. -/
def rCoerce : StartupInput :=
  { startupName := "Acme", industry := "Fintech", targetMarket := "B2C",
    geography := "US", teamSize := 0, productStage := "Idea",
    monthlyRevenue := Option.none, growthRate := some "",
    tractionSummary := some "", businessModel := "SaaS",
    fundingGoal := Option.none, mainFinancialConcern := "Runway" }

/-! ## General lemmas about the embedding -/

theorem dictGet_dictSet_self (d : PyDict) (k : String) (v : PyVal) :
    dictGet (dictSet d k v) k = some v := by
  induction d with
  | nil => simp [dictSet, dictGet]
  | cons p rest ih =>
      obtain ⟨k1, v1⟩ := p
      by_cases h : k1 = k
      · simp [dictSet, dictGet, h]
      · simp [dictSet, dictGet, h, ih]

theorem dictGet_dictSet_other (d : PyDict) (k q : String) (v : PyVal) (h : k ≠ q) :
    dictGet (dictSet d k v) q = dictGet d q := by
  induction d with
  | nil => simp [dictSet, dictGet, h]
  | cons p rest ih =>
      obtain ⟨k1, v1⟩ := p
      simp only [dictSet]
      by_cases h1 : k1 = k
      · subst h1
        simp [dictGet, h]
      · simp only [if_neg h1, dictGet]
        split
        · rfl
        · exact ih

/-- The agent loop never reads the execution log: its result is the
initial log with the run's fresh entries appended, and neither the final
context, the final key variable, nor the escaping exception depends on
the initial log. -/
theorem runAgents_frame (input : PyDict) (as : List Agent) :
    ∀ (k : Option String) (c : PyDict) (L : List LogEntry),
      runAgents input as ⟨k, c, L⟩
        = ({ agentKeyVar := (runAgents input as ⟨k, c, []⟩).1.agentKeyVar,
             ctx := (runAgents input as ⟨k, c, []⟩).1.ctx,
             log := L ++ (runAgents input as ⟨k, c, []⟩).1.log },
           (runAgents input as ⟨k, c, []⟩).2) := by
  induction as with
  | nil => intro k c L; simp [runAgents]
  | cons a rest ih =>
      intro k c L
      simp only [runAgents]
      cases hr : a.run input c with
      | ok out =>
          simp only [List.nil_append]
          rw [ih (some (getAgentKey a.name))
                (dictSet c (getAgentKey a.name) (.dict out)) (L ++ [successEntry a out]),
              ih (some (getAgentKey a.name))
                (dictSet c (getAgentKey a.name) (.dict out)) [successEntry a out]]
          simp
      | error e =>
          cases k with
          | some key =>
              simp only [List.nil_append]
              rw [ih (some key) (dictSet c key (.dict [("error", .str e)]))
                    (L ++ [failedEntry a e]),
                  ih (some key) (dictSet c key (.dict [("error", .str e)]))
                    [failedEntry a e]]
              simp
          | none => simp

theorem runAgents_esc_irrel (input : PyDict) (as : List Agent) (k : Option String)
    (c : PyDict) (L : List LogEntry) :
    (runAgents input as ⟨k, c, L⟩).2 = (runAgents input as ⟨k, c, []⟩).2 := by
  rw [runAgents_frame]

theorem runAgents_log_split (input : PyDict) (as : List Agent) (k : Option String)
    (c : PyDict) (L : List LogEntry) :
    (runAgents input as ⟨k, c, L⟩).1.log = L ++ (runAgents input as ⟨k, c, []⟩).1.log := by
  rw [runAgents_frame]

theorem runAgents_ctx_irrel (input : PyDict) (as : List Agent) (k : Option String)
    (c : PyDict) (L : List LogEntry) :
    (runAgents input as ⟨k, c, L⟩).1.ctx = (runAgents input as ⟨k, c, []⟩).1.ctx := by
  rw [runAgents_frame]

/-- Once some stage has succeeded (the `agent_key` local is bound), no
later failure can raise: the loop always reaches the end, appending one
log entry per remaining stage. -/
theorem runAgents_keyed (input : PyDict) (as : List Agent) :
    ∀ (s : RunState) (k : String), s.agentKeyVar = some k →
      (runAgents input as s).2 = Option.none ∧
      (runAgents input as s).1.log.length = s.log.length + as.length := by
  induction as with
  | nil => intro s k h; simp [runAgents]
  | cons a rest ih =>
      intro s k h
      simp only [runAgents]
      cases hr : a.run input s.ctx with
      | ok out =>
          have step := ih { agentKeyVar := some (getAgentKey a.name),
                            ctx := dictSet s.ctx (getAgentKey a.name) (.dict out),
                            log := s.log ++ [successEntry a out] } (getAgentKey a.name) rfl
          refine ⟨step.1, ?_⟩
          have h2 := step.2
          simp only [List.length_append, List.length_cons, List.length_nil,
            List.length_singleton] at h2 ⊢
          omega
      | error e =>
          rw [h]
          have step := ih { agentKeyVar := some k,
                            ctx := dictSet s.ctx k (.dict [("error", .str e)]),
                            log := s.log ++ [failedEntry a e] } k rfl
          refine ⟨step.1, ?_⟩
          have h2 := step.2
          simp only [List.length_append, List.length_cons, List.length_nil,
            List.length_singleton] at h2 ⊢
          omega

/-- When no exception escapes the loop, exactly one log entry is
appended per configured stage. -/
theorem runAgents_len (input : PyDict) (as : List Agent) :
    ∀ s : RunState, (runAgents input as s).2 = Option.none →
      (runAgents input as s).1.log.length = s.log.length + as.length := by
  induction as with
  | nil => intro s _; simp [runAgents]
  | cons a rest ih =>
      intro s h
      simp only [runAgents] at h ⊢
      cases hr : a.run input s.ctx with
      | ok out =>
          simp only [hr] at h ⊢
          have h2 := ih _ h
          simp only [List.length_append, List.length_cons, List.length_nil,
            List.length_singleton] at h2 ⊢
          omega
      | error e =>
          simp only [hr] at h ⊢
          cases hk : s.agentKeyVar with
          | some key =>
              simp only [hk] at h ⊢
              have h2 := ih _ h
              simp only [List.length_append, List.length_cons, List.length_nil,
                List.length_singleton] at h2 ⊢
              omega
          | none =>
              rw [hk] at h
              simp at h

/-- When no exception escapes, the fresh log names the stages in
configured order. -/
theorem runAgents_names (input : PyDict) (as : List Agent) :
    ∀ (k : Option String) (c : PyDict),
      (runAgents input as ⟨k, c, []⟩).2 = Option.none →
      ((runAgents input as ⟨k, c, []⟩).1.log).map (fun e => e.agent)
        = as.map (fun a => a.name) := by
  induction as with
  | nil => intro k c _; simp [runAgents]
  | cons a rest ih =>
      intro k c h
      simp only [runAgents] at h ⊢
      cases hr : a.run input c with
      | ok out =>
          simp only [hr, List.nil_append] at h ⊢
          rw [runAgents_esc_irrel] at h
          rw [runAgents_log_split]
          simp only [List.append_eq, List.cons_append, List.nil_append,
            List.map_append, List.map_cons, List.map_nil, List.map]
          rw [ih _ _ h]
          simp [successEntry]
      | error e =>
          cases k with
          | some key =>
              simp only [hr, List.nil_append] at h ⊢
              rw [runAgents_esc_irrel] at h
              rw [runAgents_log_split]
              simp only [List.append_eq, List.cons_append, List.nil_append,
                List.map_append, List.map_cons, List.map_nil, List.map]
              rw [ih _ _ h]
              simp [failedEntry]
          | none =>
              simp only [hr] at h
              simp at h

/-- When no exception escapes, the `i`-th log entry's status is
`"failed"` exactly when the `i`-th stage's `run` raised on the context
it was invoked on. -/
theorem runAgents_status (input : PyDict) (as : List Agent) :
    ∀ (k : Option String) (c : PyDict),
      (runAgents input as ⟨k, c, []⟩).2 = Option.none →
      ∀ i, i < as.length →
        (((runAgents input as ⟨k, c, []⟩).1.log).getD i default).status
          = statusOf ((as.getD i default).run input (stageCtx input as k c i)) := by
  induction as with
  | nil => intro k c _ i hi; simp at hi
  | cons a rest ih =>
      intro k c h i hi
      simp only [runAgents] at h ⊢
      cases hr : a.run input c with
      | ok out =>
          simp only [hr, List.nil_append] at h ⊢
          rw [runAgents_esc_irrel] at h
          rw [runAgents_log_split]
          cases i with
          | zero =>
              simp [successEntry, statusOf, stageCtx, runAgents, hr,
                List.cons_append, List.nil_append, List.getD_cons_zero, List.getD]
          | succ j =>
              have hj : j < rest.length := by simpa using hi
              have tail := ih _ _ h j hj
              simp only [List.append_eq, List.cons_append, List.nil_append,
                List.getD_cons_succ]
              rw [tail]
              have hctx : stageCtx input (a :: rest) k c (j + 1)
                  = stageCtx input rest (some (getAgentKey a.name))
                      (dictSet c (getAgentKey a.name) (.dict out)) j := by
                simp only [stageCtx, List.take_succ_cons, runAgents, hr,
                  List.nil_append]
                rw [runAgents_ctx_irrel]
              rw [hctx]
      | error e =>
          cases k with
          | some key =>
              simp only [hr, List.nil_append] at h ⊢
              rw [runAgents_esc_irrel] at h
              rw [runAgents_log_split]
              cases i with
              | zero =>
                  simp [failedEntry, statusOf, stageCtx, runAgents, hr,
                    List.cons_append, List.nil_append, List.getD_cons_zero, List.getD]
              | succ j =>
                  have hj : j < rest.length := by simpa using hi
                  have tail := ih _ _ h j hj
                  simp only [List.append_eq, List.cons_append, List.nil_append,
                    List.getD_cons_succ]
                  rw [tail]
                  have hctx : stageCtx input (a :: rest) (some key) c (j + 1)
                      = stageCtx input rest (some key)
                          (dictSet c key (.dict [("error", .str e)])) j := by
                    simp only [stageCtx, List.take_succ_cons, runAgents, hr,
                      List.nil_append]
                    rw [runAgents_ctx_irrel]
                  rw [hctx]
          | none =>
              simp only [hr] at h
              simp at h

/-- Inversion of a successful `_build_output`: the report is the
seven-entry literal and the context held a subscriptable `input` entry. -/
theorem buildOutput_ok_cases (c : PyDict) (o : PyDict) (h : buildOutput c = .ok o) :
    ∃ iv nv sm, dictGet c "input" = some iv ∧ pyGetItem iv "startupName" = .ok nv ∧
      generateSummary c = .ok sm ∧
      o = [("startup_name", nv),
           ("funding_stage", dictGetD c "funding_stage" (.dict [])),
           ("raise_amount", dictGetD c "raise_amount" (.dict [])),
           ("investor_type", dictGetD c "investor_type" (.dict [])),
           ("runway", dictGetD c "runway" (.dict [])),
           ("financial_priority", dictGetD c "financial_priority" (.dict [])),
           ("summary", .str sm)] := by
  unfold buildOutput at h
  cases hi : dictGet c "input" with
  | none => simp only [hi] at h; exact Except.noConfusion h
  | some iv =>
      simp only [hi] at h
      cases hn : pyGetItem iv "startupName" with
      | error e => simp only [hn] at h; exact Except.noConfusion h
      | ok nv =>
          simp only [hn] at h
          cases hs : generateSummary c with
          | error e => simp only [hs] at h; exact Except.noConfusion h
          | ok sm =>
              simp only [hs, Except.ok.injEq] at h
              exact ⟨iv, nv, sm, rfl, hn, rfl, h.symm⟩

/-- Inversion of `ChainManager.run` returning a report: validation
succeeded, no exception escaped the loop, the instance state is the
loop's final state, and the report is `_build_output` plus metadata. -/
theorem run_ok_cases (cm : ChainManager) (raw out : PyDict) (cm2 : ChainManager)
    (h : cm.run raw = (.ok out, cm2)) :
    ∃ v, validate_startup_input raw = .ok v ∧
      (runAgents (input_to_dict v) cm.agents
        ⟨Option.none, [("input", .dict (input_to_dict v))], cm.executionLog⟩).2
        = Option.none ∧
      cm2 = { cm with
        context := (runAgents (input_to_dict v) cm.agents
          ⟨Option.none, [("input", .dict (input_to_dict v))], cm.executionLog⟩).1.ctx,
        executionLog := (runAgents (input_to_dict v) cm.agents
          ⟨Option.none, [("input", .dict (input_to_dict v))], cm.executionLog⟩).1.log } ∧
      ∃ o7, buildOutput (runAgents (input_to_dict v) cm.agents
          ⟨Option.none, [("input", .dict (input_to_dict v))], cm.executionLog⟩).1.ctx
          = .ok o7 ∧
        out = dictSet o7 "metadata" (.dict
          [("agents_executed", .int (cm.agents.length : Int)),
           ("execution_log", .list ((runAgents (input_to_dict v) cm.agents
             ⟨Option.none, [("input", .dict (input_to_dict v))],
              cm.executionLog⟩).1.log.map logEntryToPy))]) := by
  unfold ChainManager.run at h
  cases hv : validate_startup_input raw with
  | error e => simp only [hv] at h; simp at h
  | ok v =>
      simp only [hv] at h
      refine ⟨v, rfl, ?_⟩
      cases hesc : (runAgents (input_to_dict v) cm.agents
          ⟨Option.none, [("input", .dict (input_to_dict v))], cm.executionLog⟩).2 with
      | some e => simp only [hesc] at h; simp at h
      | none =>
          simp only [hesc] at h
          cases hbo : buildOutput (runAgents (input_to_dict v) cm.agents
              ⟨Option.none, [("input", .dict (input_to_dict v))], cm.executionLog⟩).1.ctx with
          | error e => simp only [hbo] at h; simp at h
          | ok o7 =>
              simp only [hbo, Prod.mk.injEq, Except.ok.injEq] at h
              exact ⟨rfl, h.2.symm, o7, rfl, h.1.symm⟩

theorem fieldTeamSize_neg (t : Int) (h : t < 0) :
    fieldTeamSize (some (.int t))
      = .error "Input should be greater than or equal to 0" := by
  simp [fieldTeamSize, convert_to_int, pyEqStr, pyInt, h]

theorem fieldPattern_notMem (allowed : List String) (p s : String) (h : s ∉ allowed) :
    fieldPattern allowed p (some (.str s))
      = .error ("String should match pattern " ++ p) := by
  simp [fieldPattern, h]

theorem convert_to_int_bad (v : PyVal) (h : badIntVal v) : convert_to_int v = .int 0 := by
  rcases h with h | h | ⟨s, hvs, hp⟩
  · subst h; rfl
  · subst h; rfl
  · subst hvs
    by_cases hs : s = ""
    · subst hs; rfl
    · have hp2 : parseIntChars s.data = Option.none := hp
      simp [convert_to_int, pyEqStr, pyInt, hs, hp2]

theorem convert_to_float_bad (v : PyVal) (h : badFloatVal v) :
    convert_to_float v = PyVal.none := by
  rcases h with h | ⟨s, hvs, hp⟩
  · subst h; rfl
  · subst hvs
    by_cases hs : s = ""
    · subst hs; rfl
    · have hp2 : parseFloatChars s.data = Option.none := hp
      simp [convert_to_float, pyEqStr, pyFloat, hs, hp2, fundingGoalFieldTruthy]

theorem fieldTeamSize_bad (v : PyVal) (h : badIntVal v) :
    fieldTeamSize (some v) = .ok 0 := by
  simp [fieldTeamSize, convert_to_int_bad v h]

theorem fieldMonthlyRevenue_bad (v : PyVal) (h : badFloatVal v) :
    fieldMonthlyRevenue (some v) = .ok Option.none := by
  simp [fieldMonthlyRevenue, convert_to_float_bad v h]

theorem fieldFundingGoal_bad (v : PyVal) (h : badFloatVal v) :
    fieldFundingGoal (some v) = .ok Option.none := by
  simp [fieldFundingGoal, convert_to_float_bad v h]

/-- Inversion of a successful model build: each field of the result is
the value its field validator produced. -/
theorem buildStartupInput_fields (d : PyDict) (r : StartupInput)
    (h : buildStartupInput d = some r) :
    (fieldTeamSize (dictGet d "teamSize")).toOption = some r.teamSize ∧
    (fieldMonthlyRevenue (dictGet d "monthlyRevenue")).toOption = some r.monthlyRevenue ∧
    (fieldFundingGoal (dictGet d "fundingGoal")).toOption = some r.fundingGoal := by
  unfold buildStartupInput at h
  simp only [bind, Option.bind_eq_some, pure, Option.some.injEq] at h
  obtain ⟨nameV, hName, indV, hInd, tmV, hTM, geoV, hGeo, tsV, hTSv, psV, hPS,
    mrV, hMRv, grV, hGR, trV, hTr, bmV, hBM, fgV, hFGv, mfcV, hMFC, hrec⟩ := h
  subst hrec
  exact ⟨hTSv, hMRv, hFGv⟩

/-- The do-chain of `buildStartupInput` returns `none` as soon as the
`teamSize` validator fails (whatever the earlier fields did). -/
theorem buildStartupInput_none_of_teamSize (d : PyDict)
    (h : (fieldTeamSize (dictGet d "teamSize")).toOption = Option.none) :
    buildStartupInput d = Option.none := by
  unfold buildStartupInput
  cases h1 : (fieldStr 1 (some 200) (dictGet d "startupName")).toOption <;>
  cases h2 : (fieldStr 1 Option.none (dictGet d "industry")).toOption <;>
  cases h3 : (fieldPattern targetMarketAllowed "^(B2B|B2C|B2B2C)$"
      (dictGet d "targetMarket")).toOption <;>
  cases h4 : (fieldStr 1 Option.none (dictGet d "geography")).toOption <;>
  simp only [bind, h1, h2, h3, h4, h, Option.some_bind, Option.none_bind]

/-! ## Claim theorems -/

/-- Claim C1, counterexample. The claim says a run whose input passes
validation completes without raising whenever some stage's `run()`
raises. In the code, when the *first* stage raises, the `except` branch
reads the never-assigned `agent_key` local: the run aborts with
`UnboundLocalError` after logging only one entry, and no later stage
executes. -/
theorem C1_counterexample :
    (validate_startup_input rawGood).isOk = true ∧
    agentsFirstFails.length = 5 ∧
    (cmFirstFails.run rawGood).1 = Except.error agentKeyUnboundMsg ∧
    (cmFirstFails.run rawGood).2.executionLog.length = 1 :=
  ⟨by decide, by decide, rfl, by decide⟩

/-- Claim C1, amended. When stage `a`'s `run()` raises *after* some
earlier stage has succeeded (the `agent_key` local holds `k`), the
orchestrator does not invoke any FallbackPolicy: it appends a failed log
entry carrying the error message and writes `{"error": msg}` under `k` —
the key of the most recent successful stage, overwriting that stage's
output — and all later stages still execute (the loop finishes with one
entry per stage and no escaping exception). If instead no stage has
succeeded yet, reading `agent_key` raises `UnboundLocalError` and the
run aborts. -/
theorem C1_amended (input : PyDict) (a : Agent) (rest : List Agent) (k : String)
    (c : PyDict) (L : List LogEntry) (e : String) (h : a.run input c = .error e) :
    runAgents input (a :: rest) ⟨some k, c, L⟩
      = runAgents input rest
          ⟨some k, dictSet c k (.dict [("error", .str e)]), L ++ [failedEntry a e]⟩
    ∧ (runAgents input (a :: rest) ⟨some k, c, L⟩).2 = Option.none
    ∧ (runAgents input (a :: rest) ⟨some k, c, L⟩).1.log.length
        = L.length + 1 + rest.length
    ∧ (∀ c2 L2 e2, a.run input c2 = .error e2 →
        runAgents input (a :: rest) ⟨Option.none, c2, L2⟩
          = (⟨Option.none, c2, L2 ++ [failedEntry a e2]⟩, some agentKeyUnboundMsg)) := by
  have hstep : runAgents input (a :: rest) ⟨some k, c, L⟩
      = runAgents input rest
          ⟨some k, dictSet c k (.dict [("error", .str e)]), L ++ [failedEntry a e]⟩ := by
    simp [runAgents, h]
  have hk := runAgents_keyed input rest
      ⟨some k, dictSet c k (.dict [("error", .str e)]), L ++ [failedEntry a e]⟩ k rfl
  refine ⟨hstep, ?_, ?_, ?_⟩
  · rw [hstep]; exact hk.1
  · rw [hstep, hk.2]
    simp only [List.length_append, List.length_cons, List.length_nil]
  · intro c2 L2 e2 h2
    simp [runAgents, h2]

/-- Witness for `C1_amended` at a concrete failing second stage. -/
theorem C1_amended_witness :
    (failAgent "RaiseAmountAgent" "timeout" raFallbackOut).run inputGoodDict
        [("input", .dict inputGoodDict)] = Except.error "timeout" ∧
    (runAgents inputGoodDict
        (failAgent "RaiseAmountAgent" "timeout" raFallbackOut
          :: [okAgent "InvestorTypeAgent" itOut])
        ⟨some "funding_stage", [("input", .dict inputGoodDict)], []⟩).2 = Option.none ∧
    (runAgents inputGoodDict
        (failAgent "RaiseAmountAgent" "timeout" raFallbackOut
          :: [okAgent "InvestorTypeAgent" itOut])
        ⟨some "funding_stage", [("input", .dict inputGoodDict)], []⟩).1.log.length
      = 0 + 1 + 1 :=
  ⟨rfl,
   (C1_amended inputGoodDict (failAgent "RaiseAmountAgent" "timeout" raFallbackOut)
     [okAgent "InvestorTypeAgent" itOut] "funding_stage"
     [("input", .dict inputGoodDict)] [] "timeout" rfl).2.1,
   (C1_amended inputGoodDict (failAgent "RaiseAmountAgent" "timeout" raFallbackOut)
     [okAgent "InvestorTypeAgent" itOut] "funding_stage"
     [("input", .dict inputGoodDict)] [] "timeout" rfl).2.2.1⟩

/-- Claim C2, counterexample. Within one run (stage 2 raising), the key
`funding_stage` is first written with stage 1's output and later
overwritten with the error marker — no `DuplicateKeyError` exists. The
first conjunct ties the loop trace to an actual `run` call; the second
shows the full loop factors through the state after stage 1. -/
theorem C2_counterexample :
    (cmSecondFails.run rawGood).2.context
        = (runAgents inputGoodDict agentsSecondFails st0Good).1.ctx ∧
    runAgents inputGoodDict agentsSecondFails st0Good
      = runAgents inputGoodDict (agentsSecondFails.drop 1)
          (runAgents inputGoodDict (agentsSecondFails.take 1) st0Good).1 ∧
    dictGet (runAgents inputGoodDict (agentsSecondFails.take 1) st0Good).1.ctx
        "funding_stage" = some (.dict fsOut) ∧
    dictGet (runAgents inputGoodDict agentsSecondFails st0Good).1.ctx
        "funding_stage" = some (.dict [("error", .str "timeout")]) ∧
    PyVal.dict fsOut ≠ PyVal.dict [("error", .str "timeout")] :=
  ⟨rfl, rfl, rfl, rfl, by simp [fsOut]⟩

/-- Claim C2, amended. Context writes are plain dict assignments: writing
under an already-present key silently replaces the value (no
`DuplicateKeyError` exists anywhere), and the failure path exercises
exactly this by overwriting the previous successful stage's entry with
the error marker. -/
theorem C2_amended :
    (∀ d k v, dictGet (dictSet d k v) k = some v) ∧
    (∀ d k v1 v2, dictGet (dictSet (dictSet d k v1) k v2) k = some v2) ∧
    (∀ input a rest k c L e, a.run input c = .error e →
       runAgents input (a :: rest) ⟨some k, c, L⟩
         = runAgents input rest
             ⟨some k, dictSet c k (.dict [("error", .str e)]),
              L ++ [failedEntry a e]⟩) :=
  ⟨fun d k v => dictGet_dictSet_self d k v,
   fun d k v1 v2 => dictGet_dictSet_self (dictSet d k v1) k v2,
   fun input a rest k c L e h => by simp [runAgents, h]⟩

/-- Witness for `C2_amended` at a concrete overwrite. -/
theorem C2_amended_witness :
    (failAgent "RaiseAmountAgent" "timeout" raFallbackOut).run inputGoodDict
        [("input", .dict inputGoodDict)] = Except.error "timeout" ∧
    dictGet (dictSet [] "x" (.int 1)) "x" = some (.int 1) ∧
    runAgents inputGoodDict
        (failAgent "RaiseAmountAgent" "timeout" raFallbackOut :: [])
        ⟨some "funding_stage", [("input", .dict inputGoodDict)], []⟩
      = runAgents inputGoodDict []
          ⟨some "funding_stage",
           dictSet [("input", .dict inputGoodDict)] "funding_stage"
             (.dict [("error", .str "timeout")]),
           [] ++ [failedEntry (failAgent "RaiseAmountAgent" "timeout" raFallbackOut)
                    "timeout"]⟩ :=
  ⟨rfl, C2_amended.1 [] "x" (.int 1),
   C2_amended.2.2 inputGoodDict (failAgent "RaiseAmountAgent" "timeout" raFallbackOut)
     [] "funding_stage" [("input", .dict inputGoodDict)] [] "timeout" rfl⟩

/-- Claim C3, counterexample. The claim says a log entry's status is
`failed` exactly when that stage's output came from its fallback
heuristic. But the agents absorb LLM failures internally: here the
Gemini call of the real `FundingStageAgent` embedding fails, its `run`
returns `_get_fallback_output`, the context entry is exactly the
fallback heuristic's output — and the orchestrator logs `success`. -/
theorem C3_counterexample :
    geminiDown = .error "429 Resource has been exhausted" ∧
    fundingStageAgentDown.run inputGoodDict [("input", .dict inputGoodDict)]
      = fundingStageFallback inputGoodDict ∧
    (cmInternalFallback.run rawGood).2.executionLog.map (fun l => l.status)
      = ["success", "success", "success", "success", "success"] ∧
    dictGet (cmInternalFallback.run rawGood).2.context "funding_stage"
      = some (.dict [("funding_stage", .str "Seed"), ("confidence", .str "low"),
          ("rationale", .str "Fallback recommendation based on product stage and revenue (AI analysis unavailable)"),
          ("stage_characteristics", .str "Basic heuristic applied")]) ∧
    fundingStageFallback inputGoodDict
      = .ok [("funding_stage", .str "Seed"), ("confidence", .str "low"),
          ("rationale", .str "Fallback recommendation based on product stage and revenue (AI analysis unavailable)"),
          ("stage_characteristics", .str "Basic heuristic applied")] :=
  ⟨rfl, rfl, rfl, rfl, rfl⟩

/-- Claim C3, amended. For every run that returns a report, the log
gains exactly one entry per configured stage, in configured order, and
an entry's status is `failed` exactly when that stage's `run()` raised
an exception in the orchestrator — an agent that caught its LLM failure
internally and returned its fallback is logged `success`. -/
theorem C3_amended (cm : ChainManager) (raw out : PyDict) (cm2 : ChainManager)
    (h : cm.run raw = (.ok out, cm2)) :
    ∃ v, validate_startup_input raw = .ok v ∧
      cm2.executionLog.length = cm.executionLog.length + cm.agents.length ∧
      cm2.executionLog = cm.executionLog
        ++ freshLog (input_to_dict v) cm.agents [("input", .dict (input_to_dict v))] ∧
      (freshLog (input_to_dict v) cm.agents
          [("input", .dict (input_to_dict v))]).map (fun l => l.agent)
        = cm.agents.map (fun a => a.name) ∧
      ∀ i, i < cm.agents.length →
        ((freshLog (input_to_dict v) cm.agents
            [("input", .dict (input_to_dict v))]).getD i default).status
          = statusOf ((cm.agents.getD i default).run (input_to_dict v)
              (stageCtx (input_to_dict v) cm.agents Option.none
                [("input", .dict (input_to_dict v))] i)) := by
  obtain ⟨v, hv, hesc, hcm2, -⟩ := run_ok_cases cm raw out cm2 h
  have hesc0 : (runAgents (input_to_dict v) cm.agents
      ⟨Option.none, [("input", .dict (input_to_dict v))], []⟩).2 = Option.none :=
    (runAgents_esc_irrel (input_to_dict v) cm.agents Option.none
      [("input", .dict (input_to_dict v))] cm.executionLog).symm.trans hesc
  refine ⟨v, hv, ?_, ?_, ?_, ?_⟩
  · rw [hcm2]
    exact runAgents_len (input_to_dict v) cm.agents
      ⟨Option.none, [("input", .dict (input_to_dict v))], cm.executionLog⟩ hesc
  · rw [hcm2]
    exact runAgents_log_split (input_to_dict v) cm.agents Option.none
      [("input", .dict (input_to_dict v))] cm.executionLog
  · exact runAgents_names (input_to_dict v) cm.agents Option.none
      [("input", .dict (input_to_dict v))] hesc0
  · intro i hi
    exact runAgents_status (input_to_dict v) cm.agents Option.none
      [("input", .dict (input_to_dict v))] hesc0 i hi

/-- Witness for `C3_amended` at a concrete successful run. -/
theorem C3_amended_witness :
    cmAllOk.run rawGood
      = (Except.ok ((cmAllOk.run rawGood).1.toOption.getD []),
         (cmAllOk.run rawGood).2) ∧
    (cmAllOk.run rawGood).2.executionLog.length = 0 + 5 := by
  refine ⟨rfl, ?_⟩
  obtain ⟨v, hv, hlen, -⟩ := C3_amended cmAllOk rawGood
    ((cmAllOk.run rawGood).1.toOption.getD []) (cmAllOk.run rawGood).2 rfl
  exact hlen

/-- Claim C4, counterexample. When stage 2 (`RaiseAmountAgent`) raises,
the report's `raise_amount` field is the empty dict `{}` — not the
stage's declared fallback output — and the error marker lands under the
*previous* stage's field `funding_stage` instead. -/
theorem C4_counterexample :
    (cmSecondFails.run rawGood).1.toOption.map (fun r => dictGet r "raise_amount")
      = some (some (.dict [])) ∧
    (agentsSecondFails.getD 1 default).fallback inputGoodDict
        (dictSet [("input", .dict inputGoodDict)] "funding_stage" (.dict fsOut))
      = .ok raFallbackOut ∧
    PyVal.dict [] ≠ PyVal.dict raFallbackOut ∧
    (cmSecondFails.run rawGood).1.toOption.map (fun r => dictGet r "funding_stage")
      = some (some (.dict [("error", .str "timeout")])) :=
  ⟨rfl, rfl, by simp [raFallbackOut], rfl⟩

/-- Claim C4, amended. Every returned report has exactly the top-level
keys `startup_name`, the five stage keys, `summary` and `metadata`, and
each stage field equals the context entry under that key with `{}` as
default — so a stage whose `run()` raised contributes `{}` under its own
key (never its fallback output), while the error marker sits under the
previous stage's key. -/
theorem C4_amended (cm : ChainManager) (raw out : PyDict) (cm2 : ChainManager)
    (h : cm.run raw = (.ok out, cm2)) :
    dictKeys out = ["startup_name", "funding_stage", "raise_amount", "investor_type",
                    "runway", "financial_priority", "summary", "metadata"] ∧
    ∀ q, q ∈ stageKeys →
      dictGet out q = some (dictGetD cm2.context q (.dict [])) := by
  obtain ⟨v, hv, hesc, hcm2, o7, hbo, hout⟩ := run_ok_cases cm raw out cm2 h
  obtain ⟨iv, nv, sm, hi, hn, hs, ho7⟩ := buildOutput_ok_cases _ _ hbo
  subst ho7
  subst hout
  subst hcm2
  constructor
  · rfl
  · intro q hq
    simp only [stageKeys, List.mem_cons, List.mem_singleton] at hq
    rcases hq with rfl | rfl | rfl | rfl | rfl | hq
    · rfl
    · rfl
    · rfl
    · rfl
    · rfl
    · simp at hq

/-- Witness for `C4_amended` at a concrete run with a failing stage. -/
theorem C4_amended_witness :
    cmSecondFails.run rawGood
      = (Except.ok ((cmSecondFails.run rawGood).1.toOption.getD []),
         (cmSecondFails.run rawGood).2) ∧
    dictKeys ((cmSecondFails.run rawGood).1.toOption.getD [])
      = ["startup_name", "funding_stage", "raise_amount", "investor_type",
         "runway", "financial_priority", "summary", "metadata"] :=
  ⟨rfl,
   (C4_amended cmSecondFails rawGood ((cmSecondFails.run rawGood).1.toOption.getD [])
     (cmSecondFails.run rawGood).2 rfl).1⟩

/-- Claim C5, confirmed. An input with a negative team size and an
out-of-enumeration target market produces *both* field errors in the
collected validation error set (pydantic validates every field), and
`run()` fails before any stage executes, leaving the instance state
untouched. -/
theorem C5_validation_completeness (cm : ChainManager) (d : PyDict) (t : Int)
    (s : String) (ht : dictGet d "teamSize" = some (.int t)) (htNeg : t < 0)
    (hs : dictGet d "targetMarket" = some (.str s)) (hsBad : s ∉ targetMarketAllowed) :
    ("teamSize", "Input should be greater than or equal to 0")
      ∈ startupInputErrors d ∧
    ("targetMarket", "String should match pattern ^(B2B|B2C|B2B2C)$")
      ∈ startupInputErrors d ∧
    (∃ m, (cm.run d).1 = .error m) ∧
    (cm.run d).2 = cm := by
  have hTS : fieldTeamSize (dictGet d "teamSize")
      = .error "Input should be greater than or equal to 0" := by
    rw [ht]; exact fieldTeamSize_neg t htNeg
  have hTM : fieldPattern targetMarketAllowed "^(B2B|B2C|B2B2C)$"
        (dictGet d "targetMarket")
      = .error "String should match pattern ^(B2B|B2C|B2B2C)$" := by
    rw [hs]; exact fieldPattern_notMem targetMarketAllowed _ s hsBad
  have hb : buildStartupInput d = Option.none :=
    buildStartupInput_none_of_teamSize d (by rw [hTS]; rfl)
  have hvr : validate_startup_input d
      = .error ("Invalid startup input: " ++ renderErrors (startupInputErrors d)) := by
    simp [validate_startup_input, validateStartupInput, hb]
  refine ⟨?_, ?_, ?_, ?_⟩
  · simp [startupInputErrors, errsOf, hTS]
  · simp [startupInputErrors, errsOf, hTM]
  · refine ⟨"Invalid startup input: " ++ renderErrors (startupInputErrors d), ?_⟩
    unfold ChainManager.run
    rw [hvr]
  · unfold ChainManager.run
    rw [hvr]

/-- Witness for `C5_validation_completeness` at `rawTwoBad`. -/
theorem C5_validation_completeness_witness :
    dictGet rawTwoBad "teamSize" = some (.int (-1)) ∧
    dictGet rawTwoBad "targetMarket" = some (.str "B2X") ∧
    (("teamSize", "Input should be greater than or equal to 0")
        ∈ startupInputErrors rawTwoBad ∧
     ("targetMarket", "String should match pattern ^(B2B|B2C|B2B2C)$")
        ∈ startupInputErrors rawTwoBad ∧
     (∃ m, (cmAllOk.run rawTwoBad).1 = .error m) ∧
     (cmAllOk.run rawTwoBad).2 = cmAllOk) :=
  ⟨rfl, rfl,
   C5_validation_completeness cmAllOk rawTwoBad (-1) "B2X" rfl (by decide) rfl
     (by decide)⟩

/-- Claim C6, counterexample. Two distinct agent names (`RaiseAgent` and
`RaiseAgentAgent`) derive the same key `raise`, yet chain construction
succeeds — no `ConfigurationError` exists — `run()` is callable, and at
run time the second stage's output silently owns the shared key. -/
theorem C6_counterexample :
    getAgentKey raiseAgentA.name = "raise" ∧
    getAgentKey raiseAgentB.name = "raise" ∧
    raiseAgentA.name ≠ raiseAgentB.name ∧
    ChainManager.init (some "key") [raiseAgentA, raiseAgentB]
      = .ok { agents := [raiseAgentA, raiseAgentB], context := [],
              executionLog := [] } ∧
    ((ChainManager.mk [raiseAgentA, raiseAgentB] [] []).run rawGood).1.isOk
      = true ∧
    dictGet ((ChainManager.mk [raiseAgentA, raiseAgentB] [] []).run
        rawGood).2.context "raise"
      = some (.dict [("k", .str "second")]) :=
  ⟨by decide, by decide, by decide, rfl, by decide, rfl⟩

/-- Claim C6, amended. `ChainManager.__init__` performs no duplicate-key
validation: given an API key it accepts any agent list unchanged, and
when two stages derive the same key the later stage's output silently
overwrites the earlier one's context entry at run time. -/
theorem C6_amended :
    (∀ s agents, ChainManager.init (some s) agents
        = .ok { agents := agents, context := [], executionLog := [] }) ∧
    (∀ input c L a b out1 out2,
       getAgentKey a.name = getAgentKey b.name →
       a.run input c = .ok out1 →
       b.run input (dictSet c (getAgentKey a.name) (.dict out1)) = .ok out2 →
       dictGet (runAgents input [a, b] ⟨Option.none, c, L⟩).1.ctx
           (getAgentKey a.name)
         = some (.dict out2)) := by
  constructor
  · intro s agents; rfl
  · intro input c L a b out1 out2 hk h1 h2
    simp only [runAgents, h1, h2, List.append_assoc]
    rw [hk]
    exact dictGet_dictSet_self _ _ _

/-- Witness for `C6_amended` at the colliding pair. -/
theorem C6_amended_witness :
    getAgentKey raiseAgentA.name = getAgentKey raiseAgentB.name ∧
    raiseAgentA.run inputGoodDict [("input", .dict inputGoodDict)]
      = .ok [("k", .str "first")] ∧
    dictGet (runAgents inputGoodDict [raiseAgentA, raiseAgentB]
        ⟨Option.none, [("input", .dict inputGoodDict)], []⟩).1.ctx
        (getAgentKey raiseAgentA.name)
      = some (.dict [("k", .str "second")]) :=
  ⟨by decide, rfl,
   C6_amended.2 inputGoodDict [("input", .dict inputGoodDict)] [] raiseAgentA
     raiseAgentB [("k", .str "first")] [("k", .str "second")] (by decide) rfl rfl⟩

/-- On names whose only occurrence of `"Agent"` is the final suffix, the
source's remove-all-occurrences (`str.replace`) agrees with the spec's
strip-the-suffix. -/
theorem removeAgent_eq_strip (l : List Char) (h : agentOnlyAtEnd l = true) :
    removeAgent l = stripSuffixAgent l := by
  induction l using removeAgent.induct with
  | case1 rest ih =>
      have hr : rest = [] := by
        simpa [agentOnlyAtEnd, List.isEmpty_iff] using h
      subst hr
      rfl
  | case2 c rest hne ih =>
      have hM : removeAgent (c :: rest) = c :: removeAgent rest := by
        rw [removeAgent.eq_def]
        split
        next r2 heq =>
          injection heq with h1 h2
          exact (hne r2 h1 h2).elim
        next x c2 r2 hx heq =>
          injection heq with h1 h2
          rw [← h1, ← h2]
        next x heq =>
          simp at heq
      have hA : agentOnlyAtEnd (c :: rest) = agentOnlyAtEnd rest := by
        rw [agentOnlyAtEnd.eq_def]
        split
        next r2 heq =>
          injection heq with h1 h2
          exact (hne r2 h1 h2).elim
        next x c2 r2 hx heq =>
          injection heq with h1 h2
          rw [h2]
        next x heq =>
          simp at heq
      have hne2 : ¬(c :: rest = agentChars) := by
        intro hh
        simp only [agentChars, List.cons.injEq] at hh
        exact hne [] hh.1 (by simpa using hh.2)
      have hS : stripSuffixAgent (c :: rest) = c :: stripSuffixAgent rest := by
        simp [stripSuffixAgent, hne2]
      rw [hA] at h
      rw [hM, hS, ih h]
  | case3 => rfl

/-- On strings with no digit-to-uppercase boundary, the source's
`[a-z0-9][A-Z]` separator insertion agrees with the spec's
lowercase-to-uppercase description. -/
theorem snakeSub_eq_spec (l : List Char) (h : noDigitUpper l = true) :
    snakeSub l = snakeSpec l := by
  induction l with
  | nil => rfl
  | cons c t ih =>
      cases t with
      | nil => rfl
      | cons c2 t2 =>
          simp only [noDigitUpper, Bool.and_eq_true, Bool.not_eq_true] at h
          have htail := ih h.2
          simp only [snakeSub, snakeSpec]
          by_cases hu : c2.isUpper = true
          · by_cases hl : c.isLower = true
            · simp [hl, hu, htail]
            · have hd : c.isDigit = false := by
                cases hdd : c.isDigit
                · rfl
                · exfalso
                  rw [hdd, hu] at h
                  simp at h
              have hl2 : c.isLower = false := by
                cases hll : c.isLower
                · rfl
                · exact absurd hll hl
              simp [hl2, hd, hu, htail]
          · have hu2 : c2.isUpper = false := by
              cases huu : c2.isUpper
              · rfl
              · exact absurd huu hu
            simp [hu2, htail]

/-- Claim C7, counterexample. The source removes *every* occurrence of
`"Agent"` (Python `str.replace`), not only a trailing suffix: on the
name `AgentSmithAgent` the code yields `smith` while the spec's
strip-the-suffix algorithm yields `agent_smith`. -/
theorem C7_counterexample :
    getAgentKey "AgentSmithAgent" = "smith" ∧
    specDeriveKey "AgentSmithAgent" = "agent_smith" ∧
    getAgentKey "AgentSmithAgent" ≠ specDeriveKey "AgentSmithAgent" :=
  ⟨by decide, by decide, by decide⟩

/-- Claim C7, amended. Key derivation is a pure function of the agent
name that removes every occurrence of the word `Agent` (not only a
suffix), inserts a separator at each lowercase-or-digit-to-uppercase
transition, and lowercases the result; `FundingStageAgent` maps to
`funding_stage` and `RaiseAmountAgent` to `raise_amount`, and on names
whose only `Agent` occurrence is the final suffix and which have no
digit-to-uppercase boundary the code agrees exactly with the spec's
algorithm. -/
theorem C7_amended :
    getAgentKey "FundingStageAgent" = "funding_stage" ∧
    getAgentKey "RaiseAmountAgent" = "raise_amount" ∧
    getAgentKey "RaiseAgentAgent" = "raise" ∧
    ∀ s : String, agentOnlyAtEnd s.toList = true →
      noDigitUpper (stripSuffixAgent s.toList) = true →
      getAgentKey s = specDeriveKey s := by
  refine ⟨by decide, by decide, by decide, ?_⟩
  intro s h1 h2
  unfold getAgentKey specDeriveKey
  rw [removeAgent_eq_strip s.toList h1, snakeSub_eq_spec (stripSuffixAgent s.toList) h2]

/-- Witness for `C7_amended` at `FundingStageAgent`. -/
theorem C7_amended_witness :
    agentOnlyAtEnd "FundingStageAgent".toList = true ∧
    noDigitUpper (stripSuffixAgent "FundingStageAgent".toList) = true ∧
    getAgentKey "FundingStageAgent" = specDeriveKey "FundingStageAgent" :=
  ⟨by decide, by decide, C7_amended.2.2.2 "FundingStageAgent" (by decide) (by decide)⟩

/-- Claim C8, code bug. The contract says every agent's fallback is pure
and never raises on validated input. But validation coerces an empty
`monthlyRevenue` to `None` (the `else 0` branch of `convert_to_float` is
dead because the pydantic field object is always truthy), and on such a
validated input `FundingStageAgent._get_fallback_output` raises
`TypeError` comparing `None < 1000`, and
`RunwayAgent._get_fallback_output` raises `TypeError` subtracting `None`
from the estimated burn. -/
theorem C8_code_bug :
    (validateStartupInput rawMVPEmptyRevenue).toOption.map (fun r => r.monthlyRevenue)
      = some Option.none ∧
    fundingGoalFieldTruthy = true ∧
    (validate_startup_input rawMVPEmptyRevenue).toOption.map
        (fun r => fundingStageFallback (input_to_dict r))
      = some (Except.error
          "TypeError: '<' not supported between instances of 'NoneType' and 'int'") ∧
    (validate_startup_input rawMVPEmptyRevenue).toOption.map
        (fun r => runwayFallback (input_to_dict r) [])
      = some (Except.error
          "TypeError: unsupported operand type(s) for -: 'int' and 'NoneType'") :=
  ⟨rfl, rfl, rfl, rfl⟩

/-- Claim C9, counterexample. The execution log is instance state that is
never cleared between runs: after a second `run()` on the same manager
the instance log — and the `execution_log` reported inside that run's
metadata — holds ten entries for five configured stages, not five. -/
theorem C9_counterexample :
    cmAllOk.agents.length = 5 ∧
    (cmAllOk.run rawGood).2.executionLog.length = 5 ∧
    ((cmAllOk.run rawGood).2.run rawGood).2.executionLog.length = 10 ∧
    (cmAllOk.run rawGood).1.toOption.bind metadataLogLength = some 5 ∧
    ((cmAllOk.run rawGood).2.run rawGood).1.toOption.bind metadataLogLength
      = some 10 :=
  ⟨rfl, by decide, by decide, rfl, rfl⟩

/-- Claim C9, amended. Each `run()` re-seeds the context, so the final
context is a function of the agent list and the validated input alone —
but the execution log accumulates: the new instance log is the old one
with this run's entries appended, and the metadata block reports that
full accumulated log, not only the current run's entries. -/
theorem C9_amended (cm : ChainManager) (raw out : PyDict) (cm2 : ChainManager)
    (h : cm.run raw = (.ok out, cm2)) :
    ∃ v, validate_startup_input raw = .ok v ∧
      cm2.executionLog = cm.executionLog
        ++ freshLog (input_to_dict v) cm.agents [("input", .dict (input_to_dict v))] ∧
      cm2.context = (runAgents (input_to_dict v) cm.agents
        ⟨Option.none, [("input", .dict (input_to_dict v))], []⟩).1.ctx ∧
      ∃ m, dictGet out "metadata" = some (.dict m) ∧
        dictGet m "execution_log"
          = some (.list (cm2.executionLog.map logEntryToPy)) := by
  obtain ⟨v, hv, hesc, hcm2, o7, hbo, hout⟩ := run_ok_cases cm raw out cm2 h
  obtain ⟨iv, nv, sm, hi, hn, hs, ho7⟩ := buildOutput_ok_cases _ _ hbo
  subst ho7
  subst hout
  subst hcm2
  refine ⟨v, hv, ?_, ?_, ?_⟩
  · exact runAgents_log_split (input_to_dict v) cm.agents Option.none
      [("input", .dict (input_to_dict v))] cm.executionLog
  · exact runAgents_ctx_irrel (input_to_dict v) cm.agents Option.none
      [("input", .dict (input_to_dict v))] cm.executionLog
  · exact ⟨_, rfl, rfl⟩

/-- Witness for `C9_amended` at a concrete run. -/
theorem C9_amended_witness :
    cmAllOk.run rawGood
      = (Except.ok ((cmAllOk.run rawGood).1.toOption.getD []),
         (cmAllOk.run rawGood).2) ∧
    ∃ v, validate_startup_input rawGood = .ok v ∧
      (cmAllOk.run rawGood).2.executionLog
        = cmAllOk.executionLog
          ++ freshLog (input_to_dict v) cmAllOk.agents
               [("input", .dict (input_to_dict v))] := by
  refine ⟨rfl, ?_⟩
  obtain ⟨v, hv, hlog, -⟩ := C9_amended cmAllOk rawGood
    ((cmAllOk.run rawGood).1.toOption.getD []) (cmAllOk.run rawGood).2 rfl
  exact ⟨v, hv, hlog⟩

/-- Claim C10, confirmed. Validation silently coerces malformed numeric
fields instead of rejecting them: a `None`, empty, or non-numeric
`teamSize` becomes `0`, and an empty or non-numeric `monthlyRevenue` or
`fundingGoal` becomes `None`, with no error recorded for those fields —
so a model that validates carries the coerced values. -/
theorem C10_coercion :
    (∀ v, badIntVal v → convert_to_int v = .int 0) ∧
    (∀ v, badFloatVal v → convert_to_float v = PyVal.none) ∧
    (∀ v, badIntVal v → fieldTeamSize (some v) = .ok 0) ∧
    (∀ v, badFloatVal v → fieldMonthlyRevenue (some v) = .ok Option.none) ∧
    (∀ v, badFloatVal v → fieldFundingGoal (some v) = .ok Option.none) ∧
    (∀ d r, validateStartupInput d = .ok r →
       (∀ v, dictGet d "teamSize" = some v → badIntVal v → r.teamSize = 0) ∧
       (∀ v, dictGet d "monthlyRevenue" = some v → badFloatVal v →
          r.monthlyRevenue = Option.none) ∧
       (∀ v, dictGet d "fundingGoal" = some v → badFloatVal v →
          r.fundingGoal = Option.none)) := by
  refine ⟨convert_to_int_bad, convert_to_float_bad, fieldTeamSize_bad,
    fieldMonthlyRevenue_bad, fieldFundingGoal_bad, ?_⟩
  intro d r hval
  have hb : buildStartupInput d = some r := by
    unfold validateStartupInput at hval
    cases hbb : buildStartupInput d with
    | none => simp [hbb] at hval
    | some r2 =>
        rw [hbb] at hval
        simp only [Except.ok.injEq] at hval
        rw [← hval]
  obtain ⟨hTS, hMR, hFG⟩ := buildStartupInput_fields d r hb
  refine ⟨?_, ?_, ?_⟩
  · intro v hv hbad
    rw [hv, fieldTeamSize_bad v hbad] at hTS
    simpa [Except.toOption] using hTS.symm
  · intro v hv hbad
    rw [hv, fieldMonthlyRevenue_bad v hbad] at hMR
    simpa [Except.toOption] using hMR.symm
  · intro v hv hbad
    rw [hv, fieldFundingGoal_bad v hbad] at hFG
    simpa [Except.toOption] using hFG.symm

/-- Witness for `C10_coercion` at `rawCoerce`. -/
theorem C10_coercion_witness :
    validateStartupInput rawCoerce = .ok rCoerce ∧
    dictGet rawCoerce "teamSize" = some (.str "abc") ∧
    badIntVal (.str "abc") ∧
    rCoerce.teamSize = 0 ∧
    rCoerce.monthlyRevenue = Option.none ∧
    rCoerce.fundingGoal = Option.none :=
  ⟨rfl, rfl, Or.inr (Or.inr ⟨"abc", rfl, rfl⟩),
   (C10_coercion.2.2.2.2.2 rawCoerce rCoerce rfl).1 (.str "abc") rfl
     (Or.inr (Or.inr ⟨"abc", rfl, rfl⟩)),
   (C10_coercion.2.2.2.2.2 rawCoerce rCoerce rfl).2.1 (.str "") rfl
     (Or.inl rfl),
   (C10_coercion.2.2.2.2.2 rawCoerce rCoerce rfl).2.2 (.str "goal") rfl
     (Or.inr ⟨"goal", rfl, rfl⟩)⟩

end FoundryStack
